import Mathlib

/-
Verification of the automock patch-lifecycle registry
(`automock/base.py`, `automock/utils.py`).

Shallow embedding conventions:
- Python dicts are insertion-ordered association lists; `dinsert` updates a
  present key in place (keeping its position) and appends an absent key,
  `derase` removes a key, `dlookup` finds the first binding — exactly the
  observable behaviour of a CPython dict.
- Substitute ("mock") objects and real implementations are identified by
  natural numbers; object identity is `Nat` equality.  Factory invocations
  allocate a fresh identifier from a counter in the state, so two distinct
  invocations never return the identity-equal object.
- The patchable locations (module attributes reached via `mock.patch`) are a
  dict `world : Ident → Val`; `mock.patch(name, new=v).start()` records the
  current value as the handle's `original` and writes `v`, `stop()` writes
  the recorded `original` back.
- `mock.patch.dict(_mocks, {path: m})` snapshots `_mocks` on entry and
  restores the snapshot on exit.
- Exceptions are modelled with `Except`; every operation returns the state
  reached so far together with the outcome, since a raising Python operation
  keeps all mutations already performed.  `KeyError` is the error raised by
  Python dict subscription / `del` on a missing key.
- `_pre_import` iterates `settings.REGISTRATION_IMPORTS`, which defaults to
  the empty tuple (`automock/conf/defaults.py`); it is modelled as the no-op
  it is under that default (registration imports already performed).
-/

namespace Automock

abbrev Ident := String

abbrev Val := Nat

/-- Python dict lookup: the (unique) binding of a key, if present. -/
def dlookup {α : Type} (l : List (Ident × α)) (k : Ident) : Option α :=
  match l with
  | [] => none
  | (k', v) :: rest => if k' = k then some v else dlookup rest k

/-- Python dict assignment `d[k] = v`: update in place if the key is present
(keeping its position), append at the end otherwise. -/
def dinsert {α : Type} (l : List (Ident × α)) (k : Ident) (v : α) : List (Ident × α) :=
  match l with
  | [] => [(k, v)]
  | (k', v') :: rest => if k' = k then (k, v) :: rest else (k', v') :: dinsert rest k v

/-- Python `del d[k]`: remove the binding of `k` (first occurrence). -/
def derase {α : Type} (l : List (Ident × α)) (k : Ident) : List (Ident × α) :=
  match l with
  | [] => []
  | (k', v') :: rest => if k' = k then rest else (k', v') :: derase rest k

/-- The keys of a dict, in insertion order. -/
def keys {α : Type} (l : List (Ident × α)) : List Ident :=
  l.map (fun p => p.1)

/-- Exceptions that the embedded operations can raise.  `keyError` models
Python `KeyError` (dict subscription or `del` on a missing key),
`attributeError` a failing dynamic attribute resolution, and `userRaise`
an arbitrary exception thrown by wrapped user code or a factory. -/
inductive PyErr
  | keyError (k : Ident)
  | attributeError (k : Ident)
  | userRaise (n : Nat)
deriving Repr, DecidableEq

/-- A registered mock factory.  Invocation either raises (when called with
the designated bad argument list, letting us model a raising factory) or
allocates a fresh substitute.  The default `mock.MagicMock` factory is
`⟨none⟩` (never raises). -/
structure Factory where
  bad : Option (List Nat)
deriving Repr, DecidableEq

/-- A started `mock.patch` handle: the patched location, the substitute it
installed, and the original value it recorded at start time (written back by
`stop()`). -/
structure Patcher where
  target : Ident
  newv : Val
  original : Val
deriving Repr, DecidableEq

/-- The global state: the patchable locations (`world`), the module-level
dicts `_factory_map`, `_patchers`, `_mocks` of `automock/base.py`, the
fresh-object counter, and the list of warnings issued so far. -/
structure St where
  world : List (Ident × Val)
  factory_map : List (Ident × Factory)
  patchers : List (Ident × Patcher)
  mocks : List (Ident × Val)
  fresh : Nat
  warns : List String
deriving Repr, DecidableEq

/-- Append a warning (`warnings.warn`). -/
def warnAdd (s : St) (m : String) : St :=
  { s with warns := s.warns ++ [m] }

/-- Invoke a factory with the given arguments: raise on the designated bad
arguments, otherwise return a freshly allocated substitute. -/
def callFactory (f : Factory) (args : List Nat) (s : St) : Except PyErr Val × St :=
  if f.bad = some args then (.error (.userRaise 0), s)
  else (.ok s.fresh, { s with fresh := s.fresh + 1 })

/-- The loop body of `start_patching`: for each `(name, factory)` item,
`patcher = mock.patch(name, new=factory()); mocked = patcher.start();
_patchers[name] = patcher; _mocks[name] = mocked`. -/
def startItems (items : List (Ident × Factory)) (s : St) : Except PyErr Unit × St :=
  match items with
  | [] => (.ok (), s)
  | (name, factory) :: rest =>
    match callFactory factory [] s with
    | (.error e, s1) => (.error e, s1)
    | (.ok m, s1) =>
      match dlookup s1.world name with
      | none => (.error (.attributeError name), s1)
      | some orig =>
        let p : Patcher := { target := name, newv := m, original := orig }
        startItems rest
          { s1 with
            world := dinsert s1.world name m,
            patchers := dinsert s1.patchers name p,
            mocks := dinsert s1.mocks name m }

/-- `start_patching(name=None)` (`automock/base.py`): warn when called with
no name while handles are live, then patch the single named identifier
(`KeyError` when unregistered) or every registered identifier. -/
def start_patching (name : Option Ident) (s : St) : Except PyErr Unit × St :=
  let s := if s.patchers ≠ [] ∧ name = none then
      warnAdd s "start_patching() called again, already patched"
    else s
  match name with
  | some n =>
    match dlookup s.factory_map n with
    | none => (.error (.keyError n), s)
    | some factory => startItems [(n, factory)] s
  | none => startItems s.factory_map s

/-- The loop body of `stop_patching`: for each `(name, patcher)` item,
`patcher.stop(); del _patchers[name]; del _mocks[name]` — the write-back of
the recorded original always happens; a failing `del` (`KeyError` on a
missing key) keeps the mutations made so far.  (The two lookups are phrased
against the tables the `del`s read; the write-back and the first `del` do
not touch them.) -/
def stopItems (items : List (Ident × Patcher)) (s : St) : Except PyErr Unit × St :=
  match items with
  | [] => (.ok (), s)
  | (name, p) :: rest =>
    match dlookup s.patchers name with
    | none => (.error (.keyError name),
               { s with world := dinsert s.world p.target p.original })
    | some _ =>
      match dlookup s.mocks name with
      | none => (.error (.keyError name),
                 { s with world := dinsert s.world p.target p.original,
                          patchers := derase s.patchers name })
      | some _ =>
        stopItems rest
          { s with world := dinsert s.world p.target p.original,
                   patchers := derase s.patchers name,
                   mocks := derase s.mocks name }

/-- `stop_patching(name=None)` (`automock/base.py`): warn when no handles
are live, then release the single named handle (`KeyError` when absent) or
every live handle. -/
def stop_patching (name : Option Ident) (s : St) : Except PyErr Unit × St :=
  let s := if s.patchers = [] then
      warnAdd s "stop_patching() called again, already stopped"
    else s
  match name with
  | some n =>
    match dlookup s.patchers n with
    | none => (.error (.keyError n), s)
    | some p => stopItems [(n, p)] s
  | none => stopItems s.patchers s

/-- `get_mock(name)`: `return _mocks[name]` (`KeyError` when absent). -/
def get_mock (name : Ident) (s : St) : Except PyErr Val × St :=
  match dlookup s.mocks name with
  | none => (.error (.keyError name), s)
  | some m => (.ok m, s)

/-- A constructed `SwapMockContextDecorator`: `__init__` already looked up
the factory and invoked it, so the object carries the replacement substitute
it will install (the two `mock.patch` / `mock.patch.dict` members are
determined by `path` and `new_mock`). -/
structure SwapMock where
  path : Ident
  new_mock : Val
deriving Repr, DecidableEq

/-- `SwapMockContextDecorator.__init__(_path, *args)`:
`factory = _factory_map[_path]; new_mock = factory(*args, **kwargs)`, then
the (unstarted) patch objects are stored.  A missing registration is a
`KeyError`; a raising factory propagates before anything is installed. -/
def swapMockInit (path : Ident) (args : List Nat) (s : St) : Except PyErr SwapMock × St :=
  match dlookup s.factory_map path with
  | none => (.error (.keyError path), s)
  | some factory =>
    match callFactory factory args s with
    | (.error e, s1) => (.error e, s1)
    | (.ok m, s1) => (.ok { path := path, new_mock := m }, s1)

/-- The exit data a swap extent holds: the location value recorded by
`mock.patch.__enter__` and the `_mocks` snapshot recorded by
`mock.patch.dict.__enter__`. -/
structure SwapSaved where
  orig : Val
  saved_mocks : List (Ident × Val)
deriving Repr, DecidableEq

/-- `SwapMockContextDecorator.__enter__`: enters `mock.patch(_path,
new=new_mock)` (recording the location's current value, installing the
substitute) then `mock.patch.dict(_mocks, {_path: new_mock})` (snapshotting
`_mocks`, writing the entry), and returns `self[0]`, the new substitute. -/
def swapEnter (sm : SwapMock) (s : St) : Except PyErr (Val × SwapSaved) × St :=
  match dlookup s.world sm.path with
  | none => (.error (.attributeError sm.path), s)
  | some orig =>
    let s1 := { s with world := dinsert s.world sm.path sm.new_mock }
    let saved := s1.mocks
    let s2 := { s1 with mocks := dinsert s1.mocks sm.path sm.new_mock }
    (.ok (sm.new_mock, { orig := orig, saved_mocks := saved }), s2)

/-- `MultipleContextDecorator.__exit__` for a swap: exits the two member
patches in entry order — `mock.patch.__exit__` writes the recorded value
back, `mock.patch.dict.__exit__` restores the `_mocks` snapshot. -/
def swapExit (sm : SwapMock) (sv : SwapSaved) (s : St) : St :=
  let s1 := { s with world := dinsert s.world sm.path sv.orig }
  { s1 with mocks := sv.saved_mocks }

/-- Wrapped user code: consumes the value yielded by the context manager and
the state, returns a result or raises, possibly mutating the state. -/
abbrev Body (α β : Type) := α → St → Except PyErr β × St

/-- `with swap_mock(path, *args) as m: body` — construction, entry, body,
and (on both the normal and the raising path, per the `with` statement)
exit. -/
def swapWith {β : Type} (path : Ident) (args : List Nat) (body : Body Val β)
    (s : St) : Except PyErr β × St :=
  match swapMockInit path args s with
  | (.error e, s1) => (.error e, s1)
  | (.ok sm, s1) =>
    match swapEnter sm s1 with
    | (.error e, s2) => (.error e, s2)
    | (.ok (v, sv), s2) =>
      match body v s2 with
      | (res, s3) => (res, swapExit sm sv s3)

/-- `mock.patch(path, new=newv)` used as a decorator (what
`MultipleContextDecorator.__call__` builds from the first member): the
library wrapper enters the patch, runs the function, and restores the
location in a `finally` block, so the raising path also restores. -/
def mockPatchDecorator {β : Type} (path : Ident) (newv : Val) (f : Body Unit β) :
    Body Unit β :=
  fun _ s =>
    match dlookup s.world path with
    | none => (.error (.attributeError path), s)
    | some orig =>
      match f () { s with world := dinsert s.world path newv } with
      | (res, s1) => (res, { s1 with world := dinsert s1.world path orig })

/-- `mock.patch.dict(_mocks, {path: newv})` used as a decorator (the second
member): snapshot, write the entry, run, restore the snapshot in a
`finally` block. -/
def mockPatchDictDecorator {β : Type} (path : Ident) (newv : Val) (f : Body Unit β) :
    Body Unit β :=
  fun _ s =>
    let saved := s.mocks
    match f () { s with mocks := dinsert s.mocks path newv } with
    | (res, s1) => (res, { s1 with mocks := saved })

/-- `SwapMockContextDecorator` used as a decorator:
`MultipleContextDecorator.__call__` applies each member in sequence
(`decorated = decorator(decorated)`), so the dict patch ends up outermost. -/
def swapMockDecorator {β : Type} (sm : SwapMock) (f : Body Unit β) : Body Unit β :=
  mockPatchDictDecorator sm.path sm.new_mock (mockPatchDecorator sm.path sm.new_mock f)

/-- `UnMockContextDecorator.__enter__`: `stop_patching(self.name)` then
`return _get_from_path(self.name)` — the value now resolved at the
location. -/
def unmockEnter (name : Ident) (s : St) : Except PyErr Val × St :=
  match stop_patching (some name) s with
  | (.error e, s1) => (.error e, s1)
  | (.ok _, s1) =>
    match dlookup s1.world name with
    | none => (.error (.attributeError name), s1)
    | some v => (.ok v, s1)

/-- `UnMockContextDecorator.__exit__`: `start_patching(self.name)`. -/
def unmockExit (name : Ident) (s : St) : Except PyErr Unit × St :=
  start_patching (some name) s

/-- `with unmock(name) as restored: body` — the `with` statement runs
`__exit__` on the normal and the raising path alike (an exception raised by
`__exit__` itself takes precedence). -/
def unmockWith {β : Type} (name : Ident) (body : Body Val β) (s : St) :
    Except PyErr β × St :=
  match unmockEnter name s with
  | (.error e, s1) => (.error e, s1)
  | (.ok v, s1) =>
    match body v s1 with
    | (.ok r, s2) =>
      match unmockExit name s2 with
      | (.error e, s3) => (.error e, s3)
      | (.ok _, s3) => (.ok r, s3)
    | (.error e, s2) =>
      match unmockExit name s2 with
      | (.error e2, s3) => (.error e2, s3)
      | (.ok _, s3) => (.error e, s3)

/-- `UnMockContextDecorator.__call__` (`automock/base.py` lines 236–254):
`stop_patching(self.name); restored = _get_from_path(self.name);
ret = f(*args + (restored,)); start_patching(self.name); return ret` —
with no `try`/`finally`, so when `f` raises, `start_patching` never runs. -/
def unmockDecorator {β : Type} (name : Ident) (f : Val → Body Unit β) :
    Body Unit β :=
  fun _ s =>
    match stop_patching (some name) s with
    | (.error e, s1) => (.error e, s1)
    | (.ok _, s1) =>
      match dlookup s1.world name with
      | none => (.error (.attributeError name), s1)
      | some restored =>
        match f restored () s1 with
        | (.error e, s2) => (.error e, s2)
        | (.ok r, s2) =>
          match start_patching (some name) s2 with
          | (.error e, s3) => (.error e, s3)
          | (.ok _, s3) => (.ok r, s3)

/-
`automock/utils.py`: the conditional and multiple combinators are generic
over arbitrary context-manager/decorator objects.  Component contexts are
modelled as labelled objects whose enter/exit append observable events to a
trace, so that invocation order is provable.
-/

/-- An observable event: component `i`'s `__enter__` or `__exit__` ran. -/
inductive Ev
  | enter (i : Nat)
  | exit (i : Nat)
deriving Repr, DecidableEq

/-- A generic component context object, identified by a label; its
`__enter__` yields the label. -/
structure CtxObj where
  id : Nat
deriving Repr, DecidableEq

/-- Component `__enter__`: record the event, yield the component's value. -/
def ctxEnter (c : CtxObj) (t : List Ev) : Nat × List Ev :=
  (c.id, t ++ [Ev.enter c.id])

/-- Component `__exit__`: record the event. -/
def ctxExit (c : CtxObj) (t : List Ev) : List Ev :=
  t ++ [Ev.exit c.id]

/-- A `MultipleContextDecorator`: the member objects (`self._objects`) and
the collected member yields (`self._contexts`, filled in by `__enter__`). -/
structure MultipleCD where
  objects : List CtxObj
  contexts : List Nat
deriving Repr, DecidableEq

/-- `MultipleContextDecorator.__init__(*context_decorators)`. -/
def multipleInit (objs : List CtxObj) : MultipleCD :=
  { objects := objs, contexts := [] }

/-- The list comprehension `[obj.__enter__() for obj in self._objects]`:
enters each member in sequence, collecting the yields. -/
def multipleEnterAux (objs : List CtxObj) (t : List Ev) : List Nat × List Ev :=
  match objs with
  | [] => ([], t)
  | c :: rest =>
    let (v, t1) := ctxEnter c t
    let (vs, t2) := multipleEnterAux rest t1
    (v :: vs, t2)

/-- `MultipleContextDecorator.__enter__`: fill `self._contexts` and return
`self`. -/
def multipleEnter (m : MultipleCD) (t : List Ev) : MultipleCD × List Ev :=
  let (vs, t1) := multipleEnterAux m.objects t
  ({ m with contexts := vs }, t1)

/-- `MultipleContextDecorator.__exit__`: `for obj in self._objects:
obj.__exit__(*args)` — the same order as entry, not reversed. -/
def multipleExitAux (objs : List CtxObj) (t : List Ev) : List Ev :=
  match objs with
  | [] => t
  | c :: rest => multipleExitAux rest (ctxExit c t)

/-- `MultipleContextDecorator.__exit__` on the object. -/
def multipleExit (m : MultipleCD) (t : List Ev) : List Ev :=
  multipleExitAux m.objects t

/-- `MultipleContextDecorator.__getitem__`: index into the collected
yields. -/
def multipleGetitem (m : MultipleCD) (k : Nat) : Option Nat :=
  m.contexts.get? k

/-- `MultipleContextDecorator.__len__`. -/
def multipleLen (m : MultipleCD) : Nat :=
  m.contexts.length

/-- A `ConditionalContextDecorator`: the `condition` property (a fixed bool
is a constant function; a zero-argument callable predicate reads the current
state, and is re-evaluated at each use) and the wrapped context object. -/
structure CondCD where
  condition : List Ev → Bool
  context_object : CtxObj

/-- `ConditionalContextDecorator.__enter__`: `if self.condition: return
self.context_object.__enter__()` — yields nothing when the condition is
false. -/
def condEnter (c : CondCD) (t : List Ev) : Option Nat × List Ev :=
  if c.condition t then
    let (v, t1) := ctxEnter c.context_object t
    (some v, t1)
  else (none, t)

/-- `ConditionalContextDecorator.__exit__`: `if self.condition: return
self.context_object.__exit__(*args)` — the condition is evaluated afresh. -/
def condExit (c : CondCD) (t : List Ev) : List Ev :=
  if c.condition t then ctxExit c.context_object t else t

/-- `with conditional(cond, obj): body` — enter, body, exit. -/
def condWith (c : CondCD) (body : List Ev → List Ev) (t : List Ev) : List Ev :=
  let (_, t1) := condEnter c t
  condExit c (body t1)

/-- Number of occurrences of an event in a trace. -/
def countEv (e : Ev) (t : List Ev) : Nat :=
  (t.filter (fun x => x = e)).length

deriving instance DecidableEq for Except

/-- A sample initial state, used to instantiate theorems with hypotheses:
two registered identifiers with the default (never-raising) factory, both
resolvable, nothing patched yet. -/
def sampleSt : St :=
  { world := [("f", 0), ("g", 10)],
    factory_map := [("f", ⟨none⟩), ("g", ⟨none⟩)],
    patchers := [], mocks := [], fresh := 100, warns := [] }

/-- The sample state after `start_patching()`: both identifiers patched
with fresh default substitutes 100 and 101. -/
def sampleStarted : St := (start_patching none sampleSt).2

/-- An empty registry state: nothing registered, nothing patched. -/
def emptySt : St :=
  { world := [], factory_map := [], patchers := [], mocks := [],
    fresh := 0, warns := [] }

/-- The patch-handle entries that a clean `start_patching` run appends:
one per item, in registration order, each recording the pre-loop location
value as its original and a consecutively allocated substitute. -/
def mkPatchers (items : List (Ident × Factory)) (w : List (Ident × Val)) (c : Nat) :
    List (Ident × Patcher) :=
  match items with
  | [] => []
  | (n, _) :: rest => (n, ⟨n, c, (dlookup w n).getD 0⟩) :: mkPatchers rest w (c + 1)

/-- The active-substitute entries of the same run. -/
def mkMocks (items : List (Ident × Factory)) (c : Nat) : List (Ident × Val) :=
  match items with
  | [] => []
  | (n, _) :: rest => (n, c) :: mkMocks rest (c + 1)

/-- The two lifecycle tables hold entries for exactly the same identifiers. -/
def keysAligned (s : St) : Prop :=
  ∀ k, (dlookup s.patchers k).isSome ↔ (dlookup s.mocks k).isSome


/-
Association-list (Python dict) lemmas.
-/

theorem dlookup_dinsert {α : Type} (l : List (Ident × α)) (k : Ident) (v : α) :
    dlookup (dinsert l k v) k = some v := by
  induction l with
  | nil => simp [dinsert, dlookup]
  | cons hd tl ih =>
    obtain ⟨k', v'⟩ := hd
    by_cases h : k' = k <;> simp [dinsert, dlookup, h, ih]

theorem dlookup_dinsert_ne {α : Type} (l : List (Ident × α)) (k j : Ident) (v : α)
    (h : k ≠ j) : dlookup (dinsert l k v) j = dlookup l j := by
  induction l with
  | nil => simp [dinsert, dlookup, h]
  | cons hd tl ih =>
    obtain ⟨k', v'⟩ := hd
    by_cases hk : k' = k
    · subst hk
      simp [dinsert, dlookup, h]
    · by_cases hj : k' = j <;> simp [dinsert, dlookup, hk, hj, Ne.symm h, ih]

theorem dlookup_cons_ne {α : Type} (tl : List (Ident × α)) (k j : Ident) (v : α)
    (h : k ≠ j) : dlookup ((k, v) :: tl) j = dlookup tl j := by
  simp [dlookup, h]

theorem dinsert_dinsert {α : Type} (l : List (Ident × α)) (k : Ident) (a b : α) :
    dinsert (dinsert l k a) k b = dinsert l k b := by
  induction l with
  | nil => simp [dinsert]
  | cons hd tl ih =>
    obtain ⟨k', v'⟩ := hd
    by_cases h : k' = k <;> simp [dinsert, h, ih]

theorem dinsert_self {α : Type} (l : List (Ident × α)) (k : Ident) (v : α)
    (h : dlookup l k = some v) : dinsert l k v = l := by
  induction l with
  | nil => simp [dlookup] at h
  | cons hd tl ih =>
    obtain ⟨k', v'⟩ := hd
    by_cases hk : k' = k
    · subst hk
      simp [dlookup] at h
      simp [dinsert, h]
    · simp [dlookup, hk] at h
      simp [dinsert, hk, ih h]

theorem dlookup_derase_ne {α : Type} (l : List (Ident × α)) (k j : Ident)
    (h : k ≠ j) : dlookup (derase l k) j = dlookup l j := by
  induction l with
  | nil => simp [derase]
  | cons hd tl ih =>
    obtain ⟨k', v'⟩ := hd
    by_cases hk : k' = k
    · subst hk
      simp [derase, dlookup, h]
    · by_cases hj : k' = j <;> simp [derase, dlookup, hk, hj, Ne.symm h, ih]

theorem dlookup_eq_none_iff {α : Type} (l : List (Ident × α)) (k : Ident) :
    dlookup l k = none ↔ k ∉ keys l := by
  induction l with
  | nil => simp [dlookup, keys]
  | cons hd tl ih =>
    obtain ⟨k', v'⟩ := hd
    by_cases h : k' = k
    · subst h
      simp only [dlookup, if_pos rfl, keys, List.map_cons, List.mem_cons]
      simp
    · simp only [dlookup, if_neg h, keys, List.map_cons, List.mem_cons]
      rw [ih]
      simp only [keys]
      constructor
      · intro hn hor
        rcases hor with heq | hm
        · exact h heq.symm
        · exact hn hm
      · intro hn hm
        exact hn (Or.inr hm)

theorem dinsert_of_not_mem {α : Type} (l : List (Ident × α)) (k : Ident) (v : α)
    (h : k ∉ keys l) : dinsert l k v = l ++ [(k, v)] := by
  induction l with
  | nil => simp [dinsert]
  | cons hd tl ih =>
    obtain ⟨k', v'⟩ := hd
    simp only [keys, List.map_cons, List.mem_cons] at h
    push_neg at h
    have hk : k' ≠ k := Ne.symm h.1
    simp only [dinsert, if_neg hk, List.cons_append, List.cons.injEq, true_and]
    exact ih (by simpa [keys] using h.2)

theorem dlookup_derase_self {α : Type} (l : List (Ident × α)) (k : Ident)
    (h : (keys l).Nodup) : dlookup (derase l k) k = none := by
  induction l with
  | nil => simp [derase, dlookup]
  | cons hd tl ih =>
    obtain ⟨k', v'⟩ := hd
    simp only [keys, List.map_cons, List.nodup_cons] at h
    by_cases hk : k' = k
    · subst hk
      simp only [derase, if_pos rfl]
      rw [dlookup_eq_none_iff]
      simpa [keys] using h.1
    · simp only [derase, if_neg hk, dlookup, if_neg hk]
      exact ih (by simpa [keys] using h.2)

theorem keys_derase_sublist {α : Type} (l : List (Ident × α)) (k : Ident) :
    (keys (derase l k)).Sublist (keys l) := by
  induction l with
  | nil => simp [derase]
  | cons hd tl ih =>
    obtain ⟨k', v'⟩ := hd
    by_cases hk : k' = k
    · simp [derase, hk, keys]
    · simp only [derase, hk, if_false, keys, List.map_cons]
      exact (ih).cons₂ _

theorem keys_derase_nodup {α : Type} (l : List (Ident × α)) (k : Ident)
    (h : (keys l).Nodup) : (keys (derase l k)).Nodup :=
  (keys_derase_sublist l k).nodup h

theorem keys_dinsert_of_mem {α : Type} (l : List (Ident × α)) (k : Ident) (v : α)
    (h : k ∈ keys l) : keys (dinsert l k v) = keys l := by
  induction l with
  | nil => simp [keys] at h
  | cons hd tl ih =>
    obtain ⟨k', v'⟩ := hd
    by_cases hk : k' = k
    · subst hk
      simp [dinsert, keys]
    · have h' : k ∈ keys tl := by
        simp only [keys, List.map_cons, List.mem_cons] at h
        rcases h with heq | hm
        · exact absurd heq.symm hk
        · simpa [keys] using hm
      simp only [dinsert, if_neg hk, keys, List.map_cons]
      rw [show List.map (fun p => p.1) (dinsert tl k v) = keys (dinsert tl k v) from rfl,
        ih h']
      rfl

/-- Execution of a successful `with swap_mock(...)` block: under a
registered, non-raising factory and a resolvable location, the extent runs
the body on the state with the freshly built substitute installed, then
writes the recorded location value back and restores the `_mocks`
snapshot. -/
theorem swapWith_ok {β : Type} (s : St) (path : Ident) (args : List Nat) (f : Factory)
    (w : Val) (body : Body Val β)
    (hf : dlookup s.factory_map path = some f) (hb : f.bad ≠ some args)
    (hw : dlookup s.world path = some w) :
    swapWith path args body s =
      (let pr := body s.fresh
        { s with fresh := s.fresh + 1,
                 world := dinsert s.world path s.fresh,
                 mocks := dinsert s.mocks path s.fresh }
       (pr.1, { pr.2 with world := dinsert pr.2.world path w, mocks := s.mocks })) := by
  simp only [swapWith, swapMockInit, hf, callFactory, if_neg hb, swapEnter]
  simp only [show ({ s with fresh := s.fresh + 1 } : St).world = s.world from rfl, hw]
  simp only [swapExit]

/-- Claim C10: `swap_mock` invokes the registered factory with the supplied
arguments at construction time, not at entry time.  A raising factory fails
the construction with the state completely unchanged (no patch installed,
no substitute allocated); a successful construction builds the substitute
`s.fresh` immediately, and every later entry of the same object installs
exactly that substitute without allocating a new one. -/
theorem C10_swap_factory_at_construction
    (s : St) (path : Ident) (args : List Nat) (f : Factory)
    (hf : dlookup s.factory_map path = some f) :
    (f.bad = some args →
      swapMockInit path args s = (.error (.userRaise 0), s)) ∧
    (f.bad ≠ some args →
      swapMockInit path args s =
        (.ok ⟨path, s.fresh⟩, { s with fresh := s.fresh + 1 }) ∧
      ∀ (t : St) (w : Val), dlookup t.world path = some w →
        (swapEnter ⟨path, s.fresh⟩ t).1 = .ok (s.fresh, ⟨w, t.mocks⟩) ∧
        dlookup (swapEnter ⟨path, s.fresh⟩ t).2.world path = some s.fresh ∧
        dlookup (swapEnter ⟨path, s.fresh⟩ t).2.mocks path = some s.fresh ∧
        (swapEnter ⟨path, s.fresh⟩ t).2.fresh = t.fresh) := by
  constructor
  · intro hb
    simp [swapMockInit, hf, callFactory, hb]
  · intro hb
    constructor
    · simp [swapMockInit, hf, callFactory, hb]
    · intro t w hw
      refine ⟨?_, ?_, ?_, ?_⟩ <;>
        simp [swapEnter, hw, dlookup_dinsert]

/-- Witness for C10 at the sample state: the registered factory for `"f"`
never raises, so construction succeeds with substitute 100 and entry at the
started sample state installs 100. -/
theorem C10_swap_factory_at_construction_witness :
    dlookup sampleSt.factory_map "f" = some ⟨none⟩ ∧
    ((Factory.mk none).bad = some [] →
      swapMockInit "f" [] sampleSt = (.error (.userRaise 0), sampleSt)) ∧
    ((Factory.mk none).bad ≠ some [] →
      swapMockInit "f" [] sampleSt =
        (.ok ⟨"f", sampleSt.fresh⟩, { sampleSt with fresh := sampleSt.fresh + 1 }) ∧
      ∀ (t : St) (w : Val), dlookup t.world "f" = some w →
        (swapEnter ⟨"f", sampleSt.fresh⟩ t).1 = .ok (sampleSt.fresh, ⟨w, t.mocks⟩) ∧
        dlookup (swapEnter ⟨"f", sampleSt.fresh⟩ t).2.world "f" = some sampleSt.fresh ∧
        dlookup (swapEnter ⟨"f", sampleSt.fresh⟩ t).2.mocks "f" = some sampleSt.fresh ∧
        (swapEnter ⟨"f", sampleSt.fresh⟩ t).2.fresh = t.fresh) :=
  ⟨by decide, C10_swap_factory_at_construction sampleSt "f" [] ⟨none⟩ (by decide)⟩

/-- Claim C5: a `swap_mock` extent restores the identity-equal prior
substitute on exit, and two lexically nested swaps over the same identifier
unwind last-in-first-out: after both exit, the original substitute is the
active one and the three tables are exactly as before. -/
theorem C5_swap_round_trip_lifo
    (s : St) (path : Ident) (f : Factory) (a1 a2 : List Nat) (prior w : Val)
    (hf : dlookup s.factory_map path = some f)
    (h1 : f.bad ≠ some a1) (h2 : f.bad ≠ some a2)
    (hw : dlookup s.world path = some w)
    (hm : dlookup s.mocks path = some prior) :
    (let r := swapWith path a1 (fun v t => (.ok v, t)) s
     r.1 = .ok s.fresh ∧
     r.2.world = s.world ∧ r.2.mocks = s.mocks ∧ r.2.patchers = s.patchers ∧
     dlookup r.2.mocks path = some prior) ∧
    (let r := swapWith path a1
        (fun _ t => swapWith path a2 (fun v2 t2 => ((.ok v2 : Except PyErr Val), t2)) t) s
     r.1 = .ok (s.fresh + 1) ∧
     r.2.world = s.world ∧ r.2.mocks = s.mocks ∧ r.2.patchers = s.patchers ∧
     dlookup r.2.mocks path = some prior) := by
  constructor
  · rw [swapWith_ok s path a1 f w _ hf h1 hw]
    refine ⟨rfl, ?_, rfl, rfl, ?_⟩
    · simp only []
      rw [dinsert_dinsert, dinsert_self s.world path w hw]
    · exact hm
  · rw [swapWith_ok s path a1 f w _ hf h1 hw]
    have hf1 : dlookup
        ({ s with fresh := s.fresh + 1,
                  world := dinsert s.world path s.fresh,
                  mocks := dinsert s.mocks path s.fresh } : St).factory_map path =
        some f := hf
    have hw1 : dlookup
        ({ s with fresh := s.fresh + 1,
                  world := dinsert s.world path s.fresh,
                  mocks := dinsert s.mocks path s.fresh } : St).world path =
        some s.fresh := dlookup_dinsert s.world path s.fresh
    rw [swapWith_ok _ path a2 f s.fresh _ hf1 h2 hw1]
    refine ⟨rfl, ?_, rfl, rfl, ?_⟩
    · simp only []
      rw [dinsert_dinsert, dinsert_dinsert, dinsert_dinsert,
        dinsert_self s.world path w hw]
    · exact hm

/-- Witness for C5 at the started sample state: identifier `"f"` is patched
with default substitute 100, factory arguments `[1]` and `[2]`. -/
theorem C5_swap_round_trip_lifo_witness :
    dlookup sampleStarted.factory_map "f" = some ⟨none⟩ ∧
    (Factory.mk none).bad ≠ some [1] ∧ (Factory.mk none).bad ≠ some [2] ∧
    dlookup sampleStarted.world "f" = some 100 ∧
    dlookup sampleStarted.mocks "f" = some 100 ∧
    ((let r := swapWith "f" [1] (fun v t => (.ok v, t)) sampleStarted
      r.1 = .ok sampleStarted.fresh ∧
      r.2.world = sampleStarted.world ∧ r.2.mocks = sampleStarted.mocks ∧
      r.2.patchers = sampleStarted.patchers ∧
      dlookup r.2.mocks "f" = some 100) ∧
     (let r := swapWith "f" [1]
         (fun _ t => swapWith "f" [2] (fun v2 t2 => ((.ok v2 : Except PyErr Val), t2)) t)
         sampleStarted
      r.1 = .ok (sampleStarted.fresh + 1) ∧
      r.2.world = sampleStarted.world ∧ r.2.mocks = sampleStarted.mocks ∧
      r.2.patchers = sampleStarted.patchers ∧
      dlookup r.2.mocks "f" = some 100)) :=
  ⟨by decide, by decide, by decide, by decide, by decide,
   C5_swap_round_trip_lifo sampleStarted "f" ⟨none⟩ [1] [2] 100 100
     (by decide) (by decide) (by decide) (by decide) (by decide)⟩

theorem multipleEnterAux_spec (objs : List CtxObj) (t : List Ev) :
    multipleEnterAux objs t =
      (objs.map (fun c => c.id), t ++ objs.map (fun c => Ev.enter c.id)) := by
  induction objs generalizing t with
  | nil => simp [multipleEnterAux]
  | cons c rest ih => simp [multipleEnterAux, ctxEnter, ih, List.append_assoc]

theorem multipleExitAux_spec (objs : List CtxObj) (t : List Ev) :
    multipleExitAux objs t = t ++ objs.map (fun c => Ev.exit c.id) := by
  induction objs generalizing t with
  | nil => simp [multipleExitAux]
  | cons c rest ih => simp [multipleExitAux, ctxExit, ih, List.append_assoc]

/-- Claim C8: the multiple-combinator enters each component in sequence,
collecting the yielded values into an indexable ordered sequence
(`__getitem__`/`__len__` over `self._contexts`), and on exit exits the
components in the same order as entry — the exit events are appended in the
entry order, not reversed. -/
theorem C8_multiple_order (objs : List CtxObj) (t t' : List Ev) :
    (multipleEnter (multipleInit objs) t).1.contexts = objs.map (fun c => c.id) ∧
    (∀ k : Nat, multipleGetitem (multipleEnter (multipleInit objs) t).1 k =
      (objs.map (fun c => c.id)).get? k) ∧
    multipleLen (multipleEnter (multipleInit objs) t).1 = objs.length ∧
    (multipleEnter (multipleInit objs) t).2 = t ++ objs.map (fun c => Ev.enter c.id) ∧
    multipleExit (multipleEnter (multipleInit objs) t).1 t' =
      t' ++ objs.map (fun c => Ev.exit c.id) := by
  refine ⟨?_, ?_, ?_, ?_, ?_⟩ <;>
    simp [multipleEnter, multipleInit, multipleEnterAux_spec, multipleGetitem,
      multipleLen, multipleExit, multipleExitAux_spec]

theorem countEv_append (e : Ev) (t u : List Ev) :
    countEv e (t ++ u) = countEv e t + countEv e u := by
  simp [countEv, List.filter_append]

/-- Claim C9: the conditional wrapper evaluates its callable condition
independently at entry and at exit; the inner `__exit__` runs exactly when
the condition holds at exit time, regardless of whether `__enter__` ran.
A predicate that changes during the extent therefore yields an inner
context entered but never exited, or exited without having been entered:
both are exhibited on concrete predicates. -/
theorem C9_conditional_entry_exit_independent :
    (∀ (cond : List Ev → Bool) (obj : CtxObj) (body : List Ev → List Ev) (t : List Ev),
      countEv (Ev.exit obj.id) (condWith ⟨cond, obj⟩ body t) =
        countEv (Ev.exit obj.id) (body (condEnter ⟨cond, obj⟩ t).2) +
          (if cond (body (condEnter ⟨cond, obj⟩ t).2) then 1 else 0)) ∧
    condWith ⟨fun t => t.length == 0, ⟨5⟩⟩ (fun t => t ++ [Ev.enter 99]) [] =
      [Ev.enter 5, Ev.enter 99] ∧
    condWith ⟨fun t => t.length != 0, ⟨5⟩⟩ (fun t => t ++ [Ev.enter 99]) [] =
      [Ev.enter 99, Ev.exit 5] := by
  refine ⟨?_, rfl, rfl⟩
  intro cond obj body t
  by_cases h : cond (body (condEnter ⟨cond, obj⟩ t).2) <;>
    simp [condWith, condExit, ctxExit, h, countEv_append, countEv]

/-- Claim C7 counterexample: the two misuse conditions do not fail with
distinct named error kinds — starting an unregistered identifier and
stopping an unpatched identifier raise the very same error, a plain
`KeyError` on the identifier (the code defines no `UnregisteredError` or
`NotPatchedError`; the repository's own tests assert `KeyError`). -/
theorem C7_counterexample_same_error_kind :
    (start_patching (some "f") emptySt).1 = .error (.keyError "f") ∧
    (stop_patching (some "f") emptySt).1 = .error (.keyError "f") ∧
    (get_mock "f" emptySt).1 = .error (.keyError "f") ∧
    (start_patching (some "f") emptySt).1 = (stop_patching (some "f") emptySt).1 := by
  refine ⟨?_, ?_, ?_, ?_⟩ <;> decide

/-- Claim C7 (amended): starting an unregistered identifier, looking up its
factory via `swap_mock`, stopping, unmocking, or reading the active
substitute of an unpatched identifier all fail hard with an uncaught
`KeyError` on that identifier — a raised failure, not a warning — but the
error kind is the same built-in `KeyError` in every case, not two distinct
named kinds. -/
theorem C7_lookup_failures_keyerror (s : St) (n : Ident)
    (hreg : dlookup s.factory_map n = none)
    (hpat : dlookup s.patchers n = none)
    (hmock : dlookup s.mocks n = none) :
    (start_patching (some n) s).1 = .error (.keyError n) ∧
    (∀ args : List Nat, (swapMockInit n args s).1 = .error (.keyError n)) ∧
    (stop_patching (some n) s).1 = .error (.keyError n) ∧
    (unmockEnter n s).1 = .error (.keyError n) ∧
    (get_mock n s).1 = .error (.keyError n) := by
  have hstop : (stop_patching (some n) s).1 = .error (.keyError n) := by
    simp only [stop_patching]
    by_cases he : s.patchers = [] <;>
      simp [he, warnAdd, hpat, dlookup]
  refine ⟨?_, ?_, hstop, ?_, ?_⟩
  · simp only [start_patching]
    have : ¬(s.patchers ≠ [] ∧ (some n : Option Ident) = none) := by simp
    simp [this, hreg]
  · intro args
    simp [swapMockInit, hreg]
  · have hs := hstop
    simp only [unmockEnter]
    rcases hq : stop_patching (some n) s with ⟨r, s1⟩
    rw [hq] at hs
    rcases r with e | u
    · simp only [Prod.fst] at hs
      injection hs with he2
      simp [he2]
    · simp at hs
  · simp [get_mock, hmock]

/-- Witness for C7 at the empty state. -/
theorem C7_lookup_failures_keyerror_witness :
    dlookup emptySt.factory_map "f" = none ∧
    dlookup emptySt.patchers "f" = none ∧
    dlookup emptySt.mocks "f" = none ∧
    ((start_patching (some "f") emptySt).1 = .error (.keyError "f") ∧
     (∀ args : List Nat, (swapMockInit "f" args emptySt).1 = .error (.keyError "f")) ∧
     (stop_patching (some "f") emptySt).1 = .error (.keyError "f") ∧
     (unmockEnter "f" emptySt).1 = .error (.keyError "f") ∧
     (get_mock "f" emptySt).1 = .error (.keyError "f")) :=
  ⟨by decide, by decide, by decide,
   C7_lookup_failures_keyerror emptySt "f" (by decide) (by decide) (by decide)⟩

/-- Claim C1 (code bug): `unmock(name)` used as a decorator does not
re-apply the patch when the wrapped callable raises —
`UnMockContextDecorator.__call__` has no `try`/`finally`, so
`start_patching(self.name)` is skipped on the raising path.  At the started
sample state, `"f"` is patched beforehand, but after the raising decorated
call the handle and substitute entries for `"f"` are gone and its location
holds the real implementation again: the global state is net-changed. -/
theorem C1_unmock_decorator_not_restored_on_raise :
    dlookup sampleStarted.patchers "f" = some ⟨"f", 100, 0⟩ ∧
    dlookup sampleStarted.mocks "f" = some 100 ∧
    (unmockDecorator "f"
        (fun _ _ s => ((.error (.userRaise 7) : Except PyErr Nat), s)) () sampleStarted) =
      (.error (.userRaise 7),
        { world := [("f", 0), ("g", 101)],
          factory_map := [("f", ⟨none⟩), ("g", ⟨none⟩)],
          patchers := [("g", ⟨"g", 101, 10⟩)],
          mocks := [("g", 101)],
          fresh := 102, warns := [] }) := by
  refine ⟨?_, ?_, ?_⟩ <;> decide

theorem dlookup_some_ne_nil {α : Type} (l : List (Ident × α)) (k : Ident) (v : α)
    (h : dlookup l k = some v) : l ≠ [] := by
  intro he
  subst he
  simp [dlookup] at h

/-- `stop_patching(name)` on a patched identifier: release the handle
(write the recorded original back) and delete both table entries. -/
theorem stop_one_ok (s : St) (name : Ident) (p : Patcher) (cur : Val)
    (hp : dlookup s.patchers name = some p)
    (hm : dlookup s.mocks name = some cur) :
    stop_patching (some name) s =
      (.ok (), { s with world := dinsert s.world p.target p.original,
                        patchers := derase s.patchers name,
                        mocks := derase s.mocks name }) := by
  have hne : s.patchers ≠ [] := dlookup_some_ne_nil _ _ _ hp
  unfold stop_patching
  simp only [if_neg hne]
  rw [hp]
  unfold stopItems
  rw [hp, hm]
  rfl

/-- `start_patching(name)` on a registered identifier whose factory does
not raise and whose location resolves: build a fresh substitute, install
the patch (recording the current location value), and record handle and
substitute in the tables. -/
theorem start_one_ok (s : St) (name : Ident) (f : Factory) (w : Val)
    (hf : dlookup s.factory_map name = some f) (hb : f.bad ≠ some [])
    (hw : dlookup s.world name = some w) :
    start_patching (some name) s =
      (.ok (), { s with fresh := s.fresh + 1,
                        world := dinsert s.world name s.fresh,
                        patchers := dinsert s.patchers name ⟨name, s.fresh, w⟩,
                        mocks := dinsert s.mocks name s.fresh }) := by
  have hcond : ¬(s.patchers ≠ [] ∧ (some name : Option Ident) = none) := by simp
  have e1 : ({ s with fresh := s.fresh + 1 } : St).world = s.world := rfl
  simp only [start_patching, if_neg hcond, hf, startItems, callFactory, if_neg hb]
  simp only [e1, hw]

/-- Claim C6: entering `unmock(name)` on a patched identifier stops that
single patch, yielding the value the handle had displaced (the real
implementation) with the identifier completely unpatched for the extent;
exiting re-applies the patch via the single-identifier start with no
arguments, so the active substitute afterwards is a fresh output of the
registered default factory — not the previously active (possibly
swap-customised) substitute `cur`. -/
theorem C6_unmock_enter_exit (s : St) (name : Ident) (p : Patcher) (f : Factory)
    (cur : Val)
    (hp : dlookup s.patchers name = some p) (ht : p.target = name)
    (hm : dlookup s.mocks name = some cur)
    (hf : dlookup s.factory_map name = some f) (hb : f.bad ≠ some [])
    (hnp : (keys s.patchers).Nodup) (hnm : (keys s.mocks).Nodup)
    (hcur : cur < s.fresh) :
    (unmockEnter name s).1 = .ok p.original ∧
    dlookup (unmockEnter name s).2.patchers name = none ∧
    dlookup (unmockEnter name s).2.mocks name = none ∧
    dlookup (unmockEnter name s).2.world name = some p.original ∧
    (let r := unmockWith name (fun v t => ((.ok v : Except PyErr Val), t)) s
     r.1 = .ok p.original ∧
     dlookup r.2.mocks name = some s.fresh ∧
     dlookup r.2.world name = some s.fresh ∧
     dlookup r.2.patchers name = some ⟨name, s.fresh, p.original⟩ ∧
     some s.fresh ≠ some cur) := by
  have hstop := stop_one_ok s name p cur hp hm
  have henter : unmockEnter name s =
      (.ok p.original, { s with world := dinsert s.world p.target p.original,
                                patchers := derase s.patchers name,
                                mocks := derase s.mocks name }) := by
    simp only [unmockEnter, hstop]
    rw [ht]
    simp [dlookup_dinsert]
  refine ⟨by simp [henter], ?_, ?_, ?_, ?_⟩
  · simp only [henter]
    exact dlookup_derase_self _ _ hnp
  · simp only [henter]
    exact dlookup_derase_self _ _ hnm
  · simp only [henter]
    rw [ht]
    exact dlookup_dinsert _ _ _
  · have hstart : start_patching (some name)
        ({ s with world := dinsert s.world p.target p.original,
                  patchers := derase s.patchers name,
                  mocks := derase s.mocks name } : St) =
        (.ok (), { s with
          fresh := s.fresh + 1,
          world := dinsert (dinsert s.world p.target p.original) name s.fresh,
          patchers := dinsert (derase s.patchers name) name ⟨name, s.fresh, p.original⟩,
          mocks := dinsert (derase s.mocks name) name s.fresh }) := by
      have := start_one_ok
        ({ s with world := dinsert s.world p.target p.original,
                  patchers := derase s.patchers name,
                  mocks := derase s.mocks name } : St) name f p.original hf hb
        (by rw [ht]; exact dlookup_dinsert _ _ _)
      exact this
    simp only [unmockWith, henter, hstart, unmockExit]
    refine ⟨by trivial, ?_, ?_, ?_, ?_⟩
    · exact dlookup_dinsert _ _ _
    · exact dlookup_dinsert _ _ _
    · exact dlookup_dinsert _ _ _
    · intro he
      injection he with he2
      exact absurd he2.symm (Nat.ne_of_lt hcur)

/-- Witness for C6 at the started sample state with `"f"` patched (current
substitute 100, recorded original 0, counter 102). -/
theorem C6_unmock_enter_exit_witness :
    dlookup sampleStarted.patchers "f" = some ⟨"f", 100, 0⟩ ∧
    (Patcher.mk "f" 100 0).target = "f" ∧
    dlookup sampleStarted.mocks "f" = some 100 ∧
    dlookup sampleStarted.factory_map "f" = some ⟨none⟩ ∧
    (Factory.mk none).bad ≠ some [] ∧
    (keys sampleStarted.patchers).Nodup ∧
    (keys sampleStarted.mocks).Nodup ∧
    100 < sampleStarted.fresh ∧
    ((unmockEnter "f" sampleStarted).1 = .ok (Patcher.mk "f" 100 0).original ∧
     dlookup (unmockEnter "f" sampleStarted).2.patchers "f" = none ∧
     dlookup (unmockEnter "f" sampleStarted).2.mocks "f" = none ∧
     dlookup (unmockEnter "f" sampleStarted).2.world "f" =
       some (Patcher.mk "f" 100 0).original ∧
     (let r := unmockWith "f" (fun v t => ((.ok v : Except PyErr Val), t)) sampleStarted
      r.1 = .ok (Patcher.mk "f" 100 0).original ∧
      dlookup r.2.mocks "f" = some sampleStarted.fresh ∧
      dlookup r.2.world "f" = some sampleStarted.fresh ∧
      dlookup r.2.patchers "f" =
        some ⟨"f", sampleStarted.fresh, (Patcher.mk "f" 100 0).original⟩ ∧
      some sampleStarted.fresh ≠ some 100)) :=
  ⟨by decide, by decide, by decide, by decide, by decide, by decide, by decide, by decide,
   C6_unmock_enter_exit sampleStarted "f" ⟨"f", 100, 0⟩ ⟨none⟩ 100
     (by decide) (by decide) (by decide) (by decide) (by decide)
     (by decide) (by decide) (by decide)⟩


theorem startItems_cons_ok (n : Ident) (fa : Factory) (rest : List (Ident × Factory))
    (s : St) (w : Val) (hb : fa.bad ≠ some []) (hw : dlookup s.world n = some w) :
    startItems ((n, fa) :: rest) s =
      startItems rest
        { s with fresh := s.fresh + 1,
                 world := dinsert s.world n s.fresh,
                 patchers := dinsert s.patchers n ⟨n, s.fresh, w⟩,
                 mocks := dinsert s.mocks n s.fresh } := by
  have e1 : ({ s with fresh := s.fresh + 1 } : St).world = s.world := rfl
  conv_lhs => unfold startItems
  simp only [callFactory, if_neg hb, e1, hw]

theorem startItems_spec (items : List (Ident × Factory)) (s : St)
    (hnd : (keys items).Nodup)
    (hok : ∀ nf ∈ items, nf.2.bad ≠ some [] ∧ dlookup s.world nf.1 ≠ none) :
    ∃ s', startItems items s = (.ok (), s') ∧
      s'.factory_map = s.factory_map ∧
      s'.warns = s.warns ∧
      s'.fresh = s.fresh + items.length ∧
      (∀ nf ∈ items, ∃ m w, s.fresh ≤ m ∧
        dlookup s.world nf.1 = some w ∧
        dlookup s'.patchers nf.1 = some ⟨nf.1, m, w⟩ ∧
        dlookup s'.mocks nf.1 = some m ∧
        dlookup s'.world nf.1 = some m) ∧
      (∀ k, k ∉ keys items →
        dlookup s'.patchers k = dlookup s.patchers k ∧
        dlookup s'.mocks k = dlookup s.mocks k ∧
        dlookup s'.world k = dlookup s.world k) := by
  induction items generalizing s with
  | nil =>
    exact ⟨s, rfl, rfl, rfl, rfl, by simp, fun k _ => ⟨rfl, rfl, rfl⟩⟩
  | cons hd rest ih =>
    obtain ⟨n, fa⟩ := hd
    obtain ⟨hb, hwne⟩ := hok (n, fa) (List.mem_cons_self _ _)
    obtain ⟨w, hw⟩ := Option.ne_none_iff_exists'.mp hwne
    have hn_rest : n ∉ keys rest := by
      simp only [keys, List.map_cons, List.nodup_cons] at hnd
      simpa [keys] using hnd.1
    have hnd_rest : (keys rest).Nodup := by
      simp only [keys, List.map_cons, List.nodup_cons] at hnd
      simpa [keys] using hnd.2
    set s2 : St :=
      { s with fresh := s.fresh + 1,
               world := dinsert s.world n s.fresh,
               patchers := dinsert s.patchers n ⟨n, s.fresh, w⟩,
               mocks := dinsert s.mocks n s.fresh } with hs2
    have hkey_ne : ∀ nf : Ident × Factory, nf ∈ rest → nf.1 ≠ n := by
      intro nf hmem heq
      exact hn_rest (heq ▸ (List.mem_map_of_mem (fun p => p.1) hmem))
    have hok_rest : ∀ nf ∈ rest, nf.2.bad ≠ some [] ∧ dlookup s2.world nf.1 ≠ none := by
      intro nf hmem
      obtain ⟨hb', hw'⟩ := hok nf (List.mem_cons_of_mem _ hmem)
      refine ⟨hb', ?_⟩
      rw [hs2]
      simpa [dlookup_dinsert_ne s.world n nf.1 s.fresh (Ne.symm (hkey_ne nf hmem))] using hw'
    obtain ⟨s', hrun, hfm, hwarns, hfresh, hmem_spec, hframe⟩ := ih s2 hnd_rest hok_rest
    refine ⟨s', ?_, ?_, ?_, ?_, ?_, ?_⟩
    · rw [startItems_cons_ok n fa rest s w hb hw, ← hs2, hrun]
    · rw [hfm]
    · rw [hwarns]
    · rw [hfresh]
      show s2.fresh + rest.length = s.fresh + (rest.length + 1)
      have : s2.fresh = s.fresh + 1 := rfl
      omega
    · intro nf hmem
      rcases List.mem_cons.mp hmem with heq | hmem'
      · subst heq
        refine ⟨s.fresh, w, le_refl _, hw, ?_, ?_, ?_⟩
        · rw [(hframe n hn_rest).1]
          show dlookup (dinsert s.patchers n ⟨n, s.fresh, w⟩) n = _
          exact dlookup_dinsert _ _ _
        · rw [(hframe n hn_rest).2.1]
          exact dlookup_dinsert _ _ _
        · rw [(hframe n hn_rest).2.2]
          exact dlookup_dinsert _ _ _
      · obtain ⟨m, w', hm_le, hw', hp', hm', hwrld'⟩ := hmem_spec nf hmem'
        have hne : n ≠ nf.1 := Ne.symm (hkey_ne nf hmem')
        refine ⟨m, w', ?_, ?_, hp', hm', hwrld'⟩
        · have : s2.fresh = s.fresh + 1 := rfl
          omega
        · rw [← hw']
          show dlookup s.world nf.1 = dlookup (dinsert s.world n s.fresh) nf.1
          rw [dlookup_dinsert_ne s.world n nf.1 s.fresh hne]
    · intro k hk
      have hkn : k ≠ n := by
        intro heq
        exact hk (heq ▸ List.mem_cons_self _ _ : k ∈ keys ((n, fa) :: rest))
      have hkrest : k ∉ keys rest := by
        intro hmem
        exact hk (by simpa [keys] using Or.inr (by simpa [keys] using hmem))
      obtain ⟨f1, f2, f3⟩ := hframe k hkrest
      refine ⟨?_, ?_, ?_⟩
      · rw [f1]
        show dlookup (dinsert s.patchers n ⟨n, s.fresh, w⟩) k = _
        exact dlookup_dinsert_ne _ _ _ _ (Ne.symm hkn)
      · rw [f2]
        exact dlookup_dinsert_ne _ _ _ _ (Ne.symm hkn)
      · rw [f3]
        exact dlookup_dinsert_ne _ _ _ _ (Ne.symm hkn)

/-- Claim C2 counterexample: at the started sample state, a second
`start_patching()` issues the warning but then re-patches: the live handle
for `"f"` (`⟨"f", 100, 0⟩`) is replaced in the table by a fresh one whose
recorded original is the previously active substitute 100 — the location is
double-wrapped, and releasing the surviving handle afterwards restores the
first substitute, not the real implementation. -/
theorem C2_counterexample_double_start :
    dlookup sampleStarted.patchers "f" = some ⟨"f", 100, 0⟩ ∧
    (start_patching none sampleStarted).2.warns =
      ["start_patching() called again, already patched"] ∧
    dlookup (start_patching none sampleStarted).2.patchers "f" =
      some ⟨"f", 102, 100⟩ ∧
    dlookup (stop_patching none (start_patching none sampleStarted).2).2.world "f" =
      some 100 := by
  refine ⟨?_, ?_, ?_, ?_⟩ <;> decide

/-- Claim C2 (amended): calling `start_patching()` with no name while
handles are live issues the warning and does not abort; but instead of
leaving existing handles untouched, it re-patches every registered
identifier — a fresh substitute is installed over the location's current
value, and a fresh handle recording that current value as its original
replaces any existing table entry (double-wrapping already-patched
locations). -/
theorem C2_start_again_warns_and_repatches (s : St)
    (hlive : s.patchers ≠ [])
    (hnd : (keys s.factory_map).Nodup)
    (hok : ∀ nf ∈ s.factory_map, nf.2.bad ≠ some [] ∧ dlookup s.world nf.1 ≠ none) :
    ∃ s', start_patching none s = (.ok (), s') ∧
      s'.warns = s.warns ++ ["start_patching() called again, already patched"] ∧
      (∀ nf ∈ s.factory_map, ∃ m w, s.fresh ≤ m ∧
        dlookup s.world nf.1 = some w ∧
        dlookup s'.patchers nf.1 = some ⟨nf.1, m, w⟩ ∧
        dlookup s'.mocks nf.1 = some m ∧
        dlookup s'.world nf.1 = some m) := by
  have hcond : s.patchers ≠ [] ∧ (none : Option Ident) = none := ⟨hlive, rfl⟩
  have hstart : start_patching none s =
      startItems s.factory_map
        (warnAdd s "start_patching() called again, already patched") := by
    unfold start_patching
    rw [if_pos hcond]
    rfl
  set sW := warnAdd s "start_patching() called again, already patched" with hsW
  have hfmW : sW.factory_map = s.factory_map := rfl
  have hokW : ∀ nf ∈ sW.factory_map, nf.2.bad ≠ some [] ∧ dlookup sW.world nf.1 ≠ none := by
    intro nf hmem
    exact hok nf (by rwa [hfmW] at hmem)
  obtain ⟨s', hrun, hfm, hwarns, hfresh, hmem_spec, hframe⟩ :=
    startItems_spec sW.factory_map sW (by rw [hfmW]; exact hnd) hokW
  refine ⟨s', ?_, ?_, ?_⟩
  · rw [hfmW] at hrun
    rw [hstart]
    exact hrun
  · rw [hwarns]
    rfl
  · intro nf hmem
    obtain ⟨m, w, hle, hw, hp, hm, hwld⟩ := hmem_spec nf (by rwa [hfmW])
    exact ⟨m, w, hle, hw, hp, hm, hwld⟩

theorem keys_mkPatchers (items : List (Ident × Factory)) (w : List (Ident × Val)) (c : Nat) :
    keys (mkPatchers items w c) = keys items := by
  induction items generalizing c with
  | nil => rfl
  | cons hd rest ih =>
    obtain ⟨n, fa⟩ := hd
    have h := ih (c + 1)
    simp only [keys] at h ⊢
    simp [mkPatchers, h]

theorem keys_mkMocks (items : List (Ident × Factory)) (c : Nat) :
    keys (mkMocks items c) = keys items := by
  induction items generalizing c with
  | nil => rfl
  | cons hd rest ih =>
    obtain ⟨n, fa⟩ := hd
    have h := ih (c + 1)
    simp only [keys] at h ⊢
    simp [mkMocks, h]

theorem mkPatchers_target (items : List (Ident × Factory)) (w : List (Ident × Val)) (c : Nat) :
    ∀ np ∈ mkPatchers items w c, (np.2 : Patcher).target = np.1 := by
  induction items generalizing c with
  | nil => intro np h; simp [mkPatchers] at h
  | cons hd rest ih =>
    obtain ⟨n, fa⟩ := hd
    intro np hmem
    rcases List.mem_cons.mp hmem with heq | hmem'
    · subst heq; rfl
    · exact ih (c + 1) np hmem'

theorem mkPatchers_congr (items : List (Ident × Factory)) (w1 w2 : List (Ident × Val))
    (c : Nat) (h : ∀ nf ∈ items, dlookup w1 (nf : Ident × Factory).1 = dlookup w2 nf.1) :
    mkPatchers items w1 c = mkPatchers items w2 c := by
  induction items generalizing c with
  | nil => rfl
  | cons hd rest ih =>
    obtain ⟨n, fa⟩ := hd
    simp only [mkPatchers, List.cons.injEq]
    constructor
    · rw [h (n, fa) (List.mem_cons_self _ _)]
    · exact ih (c + 1) (fun nf hm => h nf (List.mem_cons_of_mem _ hm))

theorem dlookup_mkPatchers_mem (items : List (Ident × Factory)) (w : List (Ident × Val))
    (c : Nat) (k : Ident) (h : k ∈ keys items) :
    ∃ m, dlookup (mkPatchers items w c) k = some ⟨k, m, (dlookup w k).getD 0⟩ := by
  induction items generalizing c with
  | nil => simp [keys] at h
  | cons hd rest ih =>
    obtain ⟨n, fa⟩ := hd
    by_cases hk : n = k
    · subst hk
      exact ⟨c, by simp [mkPatchers, dlookup]⟩
    · have h' : k ∈ keys rest := by
        simp only [keys, List.map_cons, List.mem_cons] at h
        rcases h with heq | hm
        · exact absurd heq.symm hk
        · simpa [keys] using hm
      obtain ⟨m, hm⟩ := ih (c + 1) h'
      exact ⟨m, by simpa [mkPatchers, dlookup, hk] using hm⟩

theorem mem_keys_dinsert {α : Type} (l : List (Ident × α)) (k j : Ident) (v : α)
    (h : j ∈ keys (dinsert l k v)) : j = k ∨ j ∈ keys l := by
  induction l with
  | nil => simpa [dinsert, keys] using h
  | cons hd tl ih =>
    obtain ⟨k', v'⟩ := hd
    by_cases hk : k' = k
    · subst hk
      simpa [dinsert, keys] using h
    · simp only [dinsert, if_neg hk, keys, List.map_cons, List.mem_cons] at h ⊢
      rcases h with heq | hm
      · exact Or.inr (Or.inl heq)
      · rcases ih (by simpa [keys] using hm) with h1 | h2
        · exact Or.inl h1
        · exact Or.inr (Or.inr (by simpa [keys] using h2))

/-- Exact-list characterisation of the `start_patching` loop from a state
whose tables do not yet hold any of the processed keys: the two tables are
extended, in registration order, by matching handle and substitute
entries. -/
theorem startItems_clean (items : List (Ident × Factory)) (s : St)
    (hnd : (keys items).Nodup)
    (hok : ∀ nf ∈ items, nf.2.bad ≠ some [] ∧ dlookup s.world nf.1 ≠ none)
    (hpdis : ∀ nf ∈ items, (nf : Ident × Factory).1 ∉ keys s.patchers)
    (hmdis : ∀ nf ∈ items, (nf : Ident × Factory).1 ∉ keys s.mocks) :
    ∃ s', startItems items s = (.ok (), s') ∧
      s'.patchers = s.patchers ++ mkPatchers items s.world s.fresh ∧
      s'.mocks = s.mocks ++ mkMocks items s.fresh ∧
      s'.factory_map = s.factory_map ∧ s'.warns = s.warns ∧
      (∀ k, k ∉ keys items → dlookup s'.world k = dlookup s.world k) := by
  induction items generalizing s with
  | nil =>
    exact ⟨s, rfl, by simp [mkPatchers], by simp [mkMocks], rfl, rfl, fun k _ => rfl⟩
  | cons hd rest ih =>
    obtain ⟨n, fa⟩ := hd
    obtain ⟨hb, hwne⟩ := hok (n, fa) (List.mem_cons_self _ _)
    obtain ⟨w, hw⟩ := Option.ne_none_iff_exists'.mp hwne
    have hn_rest : n ∉ keys rest := by
      simp only [keys, List.map_cons, List.nodup_cons] at hnd
      simpa [keys] using hnd.1
    have hnd_rest : (keys rest).Nodup := by
      simp only [keys, List.map_cons, List.nodup_cons] at hnd
      simpa [keys] using hnd.2
    have hkey_ne : ∀ nf : Ident × Factory, nf ∈ rest → nf.1 ≠ n := by
      intro nf hmem heq
      exact hn_rest (heq ▸ (List.mem_map_of_mem (fun p => p.1) hmem))
    set s2 : St :=
      { s with fresh := s.fresh + 1,
               world := dinsert s.world n s.fresh,
               patchers := dinsert s.patchers n ⟨n, s.fresh, w⟩,
               mocks := dinsert s.mocks n s.fresh } with hs2
    have hok_rest : ∀ nf ∈ rest, nf.2.bad ≠ some [] ∧ dlookup s2.world nf.1 ≠ none := by
      intro nf hmem
      obtain ⟨hb', hw'⟩ := hok nf (List.mem_cons_of_mem _ hmem)
      refine ⟨hb', ?_⟩
      rw [hs2]
      simpa [dlookup_dinsert_ne s.world n nf.1 s.fresh (Ne.symm (hkey_ne nf hmem))] using hw'
    have hpdis_rest : ∀ nf ∈ rest, (nf : Ident × Factory).1 ∉ keys s2.patchers := by
      intro nf hmem hmemk
      rcases mem_keys_dinsert s.patchers n nf.1 ⟨n, s.fresh, w⟩ hmemk with heq | hm
      · exact hkey_ne nf hmem heq
      · exact hpdis nf (List.mem_cons_of_mem _ hmem) hm
    have hmdis_rest : ∀ nf ∈ rest, (nf : Ident × Factory).1 ∉ keys s2.mocks := by
      intro nf hmem hmemk
      rcases mem_keys_dinsert s.mocks n nf.1 s.fresh hmemk with heq | hm
      · exact hkey_ne nf hmem heq
      · exact hmdis nf (List.mem_cons_of_mem _ hmem) hm
    obtain ⟨s', hrun, hpl, hml, hfm, hwarns, hwframe⟩ := ih s2 hnd_rest hok_rest hpdis_rest hmdis_rest
    have hworld_congr : ∀ nf ∈ rest, dlookup s2.world (nf : Ident × Factory).1 = dlookup s.world nf.1 := by
      intro nf hmem
      rw [hs2]
      exact dlookup_dinsert_ne s.world n nf.1 s.fresh (Ne.symm (hkey_ne nf hmem))
    refine ⟨s', ?_, ?_, ?_, ?_, ?_, ?_⟩
    · rw [startItems_cons_ok n fa rest s w hb hw, ← hs2, hrun]
    · rw [hpl]
      have e1 : s2.patchers = s.patchers ++ [(n, ⟨n, s.fresh, w⟩)] :=
        dinsert_of_not_mem s.patchers n _ (hpdis (n, fa) (List.mem_cons_self _ _))
      have e2 : mkPatchers rest s2.world s2.fresh = mkPatchers rest s.world (s.fresh + 1) := by
        have : s2.fresh = s.fresh + 1 := rfl
        rw [this]
        exact mkPatchers_congr rest s2.world s.world (s.fresh + 1) hworld_congr
      rw [e1, e2]
      simp only [mkPatchers, hw, Option.getD_some, List.append_assoc, List.singleton_append]
    · rw [hml]
      have e1 : s2.mocks = s.mocks ++ [(n, s.fresh)] :=
        dinsert_of_not_mem s.mocks n _ (hmdis (n, fa) (List.mem_cons_self _ _))
      have e2 : s2.fresh = s.fresh + 1 := rfl
      rw [e1, e2]
      simp only [mkMocks, List.append_assoc, List.singleton_append]
    · rw [hfm]
    · rw [hwarns]
    · intro k hk
      have hkn : k ≠ n := by
        intro heq
        exact hk (by simp [keys, heq])
      have hkrest : k ∉ keys rest := by
        intro hmem
        exact hk (by simp [keys]; right; simpa [keys] using hmem)
      rw [hwframe k hkrest, hs2]
      exact dlookup_dinsert_ne s.world n k s.fresh (Ne.symm hkn)

/-- Exact characterisation of the `stop_patching` loop run over the full
snapshot of the handle table: every handle is released (its recorded
original written back at its target) and both tables end empty. -/
theorem stopItems_all (pl : List (Ident × Patcher)) (ml : List (Ident × Val)) (s : St)
    (hsp : s.patchers = pl) (hsm : s.mocks = ml)
    (hkeys : keys ml = keys pl) (hnd : (keys pl).Nodup)
    (htgt : ∀ np ∈ pl, (np.2 : Patcher).target = np.1) :
    ∃ s', stopItems pl s = (.ok (), s') ∧
      s'.patchers = [] ∧ s'.mocks = [] ∧
      s'.factory_map = s.factory_map ∧ s'.warns = s.warns ∧ s'.fresh = s.fresh ∧
      (∀ k, dlookup s'.world k =
        (match dlookup pl k with
         | some p => some p.original
         | none => dlookup s.world k)) := by
  induction pl generalizing ml s with
  | nil =>
    exact ⟨s, rfl, hsp, by rw [hsm]; cases ml with
      | nil => rfl
      | cons hd tl => simp [keys] at hkeys, rfl, rfl, rfl, fun k => by simp [dlookup]⟩
  | cons hd restP ih =>
    obtain ⟨n, p⟩ := hd
    cases ml with
    | nil => simp [keys] at hkeys
    | cons mhd restM =>
      obtain ⟨n', m0⟩ := mhd
      have hkeys' : n' = n ∧ keys restM = keys restP := by
        simpa [keys] using hkeys
      obtain ⟨hn', hkeysR⟩ := hkeys'
      have hsm2 : s.mocks = (n, m0) :: restM := by rw [hsm, hn']
      have hn_restP : n ∉ keys restP := by
        simp only [keys, List.map_cons, List.nodup_cons] at hnd
        simpa [keys] using hnd.1
      have hnd_restP : (keys restP).Nodup := by
        simp only [keys, List.map_cons, List.nodup_cons] at hnd
        simpa [keys] using hnd.2
      have htgt_head : p.target = n := htgt (n, p) (List.mem_cons_self _ _)
      set s3 : St :=
        { s with world := dinsert s.world p.target p.original,
                 patchers := restP,
                 mocks := restM } with hs3
      have hstep : stopItems ((n, p) :: restP) s = stopItems restP s3 := by
        conv_lhs => unfold stopItems
        rw [hsp, hsm2]
        have e2 : dlookup ((n, p) :: restP) n = some p := by simp [dlookup]
        have e4 : dlookup ((n, m0) :: restM) n = some m0 := by simp [dlookup]
        have e5 : derase ((n, p) :: restP) n = restP := by simp [derase]
        have e6 : derase ((n, m0) :: restM) n = restM := by simp [derase]
        rw [e2, e4, e5, e6, hs3]
      obtain ⟨s', hrun, hp', hm', hfm', hwarns', hfresh', hworld'⟩ :=
        ih restM s3 rfl rfl hkeysR hnd_restP
          (fun np hm => htgt np (List.mem_cons_of_mem _ hm))
      refine ⟨s', by rw [hstep, hrun], hp', hm', hfm', hwarns', hfresh', ?_⟩
      intro k
      by_cases hk : k = n
      · subst hk
        have hnone : dlookup restP k = none := by
          rw [dlookup_eq_none_iff]; exact hn_restP
        have := hworld' k
        rw [hnone] at this
        rw [this]
        have e7 : dlookup ((k, p) :: restP) k = some p := by simp [dlookup]
        rw [e7, hs3, htgt_head]
        exact dlookup_dinsert s.world k p.original
      · have := hworld' k
        have e8 : dlookup ((n, p) :: restP) k = dlookup restP k := by
          simp [dlookup, Ne.symm hk]
        rw [e8]
        rcases hq : dlookup restP k with _ | q
        · rw [hq] at this
          rw [this, hs3, htgt_head]
          exact dlookup_dinsert_ne s.world n k p.original (Ne.symm hk)
        · rw [hq] at this
          rw [this]

/-- Claim C4: from a clean state (no live handles, no active substitutes),
`start_patching()` followed by `stop_patching()` is a round trip: both
operations succeed, every location resolves to exactly the value it held
before patching, and both tables are empty again. -/
theorem C4_start_stop_round_trip (s : St)
    (hnd : (keys s.factory_map).Nodup)
    (hp0 : s.patchers = []) (hm0 : s.mocks = [])
    (hok : ∀ nf ∈ s.factory_map, nf.2.bad ≠ some [] ∧ dlookup s.world nf.1 ≠ none) :
    ∃ s1 s2, start_patching none s = (.ok (), s1) ∧
      stop_patching none s1 = (.ok (), s2) ∧
      (∀ k, dlookup s2.world k = dlookup s.world k) ∧
      s2.patchers = [] ∧ s2.mocks = [] ∧ s2.factory_map = s.factory_map := by
  have hcond : ¬(s.patchers ≠ [] ∧ (none : Option Ident) = none) := by
    simp [hp0]
  have hstart_eq : start_patching none s = startItems s.factory_map s := by
    unfold start_patching
    rw [if_neg hcond]
  obtain ⟨s1, hrun1, hpl1, hml1, hfm1, hwarns1, hwframe1⟩ :=
    startItems_clean s.factory_map s hnd hok
      (fun nf _ => by rw [hp0]; simp [keys])
      (fun nf _ => by rw [hm0]; simp [keys])
  rw [hp0, List.nil_append] at hpl1
  rw [hm0, List.nil_append] at hml1
  -- stop phase
  set pl := mkPatchers s.factory_map s.world s.fresh with hpl_def
  set ml := mkMocks s.factory_map s.fresh with hml_def
  have hkeys_pl : keys pl = keys s.factory_map := keys_mkPatchers _ _ _
  have hkeys_ml : keys ml = keys pl := by
    rw [hkeys_pl]; exact keys_mkMocks _ _
  have hnd_pl : (keys pl).Nodup := by rw [hkeys_pl]; exact hnd
  have htgt_pl : ∀ np ∈ pl, (np.2 : Patcher).target = np.1 := mkPatchers_target _ _ _
  -- the stop warning branch only touches warns; handle both cases uniformly
  have hstop_run : ∀ sW : St, sW.patchers = pl → sW.mocks = ml → sW.world = s1.world →
      ∃ s2, stopItems pl sW = (.ok (), s2) ∧
        s2.patchers = [] ∧ s2.mocks = [] ∧ s2.factory_map = sW.factory_map ∧
        (∀ k, dlookup s2.world k =
          (match dlookup pl k with
           | some p => some p.original
           | none => dlookup sW.world k)) := by
    intro sW h1 h2 h3
    obtain ⟨s2, hrun, hp2, hm2, hfm2, _, _, hw2⟩ := stopItems_all pl ml sW h1 h2 hkeys_ml hnd_pl htgt_pl
    exact ⟨s2, hrun, hp2, hm2, hfm2, hw2⟩
  have hstop_eq : ∃ sW : St, stop_patching none s1 = stopItems pl sW ∧
      sW.patchers = pl ∧ sW.mocks = ml ∧ sW.world = s1.world ∧
      sW.factory_map = s1.factory_map := by
    by_cases he : s1.patchers = []
    · refine ⟨warnAdd s1 "stop_patching() called again, already stopped", ?_,
        hpl1, hml1, rfl, rfl⟩
      unfold stop_patching
      rw [if_pos he]
      show stopItems (warnAdd s1 "stop_patching() called again, already stopped").patchers
          (warnAdd s1 "stop_patching() called again, already stopped") = _
      have h9 : (warnAdd s1 "stop_patching() called again, already stopped").patchers = pl := hpl1
      rw [h9]
    · refine ⟨s1, ?_, hpl1, hml1, rfl, rfl⟩
      unfold stop_patching
      rw [if_neg he]
      show stopItems s1.patchers s1 = stopItems pl s1
      rw [hpl1]
  obtain ⟨sW, hstop1, hw1, hw2, hw3, hw4⟩ := hstop_eq
  obtain ⟨s2, hrun2, hp2, hm2, hfm2, hworld2⟩ := hstop_run sW hw1 hw2 hw3
  refine ⟨s1, s2, by rw [hstart_eq]; exact hrun1, by rw [hstop1]; exact hrun2, ?_, hp2, hm2, ?_⟩
  · intro k
    have hw := hworld2 k
    by_cases hk : k ∈ keys s.factory_map
    · obtain ⟨m, hmk⟩ := dlookup_mkPatchers_mem s.factory_map s.world s.fresh k hk
      rw [← hpl_def] at hmk
      rw [hmk] at hw
      rw [hw]
      obtain ⟨nf, hnf_mem, hnf_eq⟩ := by
        rw [keys] at hk
        exact List.mem_map.mp hk
      obtain ⟨hb', hw'⟩ := hok nf hnf_mem
      rw [hnf_eq] at hw'
      obtain ⟨wv, hwv⟩ := Option.ne_none_iff_exists'.mp hw'
      simp [hwv]
    · have hnone : dlookup pl k = none := by
        rw [dlookup_eq_none_iff, hkeys_pl]
        exact hk
      rw [hnone] at hw
      rw [hw, hw3]
      exact hwframe1 k hk
  · rw [hfm2, hw4, hfm1]

/-- Claim C3 counterexample: during a `swap_mock` extent over the
registered-but-unpatched identifier `"f"`, the active-substitute table has
an entry for `"f"` while the patch-handle table has none — the two tables
are not modified together as a unit by `swap_mock`, which patches `_mocks`
via `mock.patch.dict` without touching `_patchers`. -/
theorem C3_counterexample_swap_unpatched :
    dlookup sampleSt.patchers "f" = none ∧
    dlookup sampleSt.mocks "f" = none ∧
    (swapMockInit "f" [] sampleSt).1 = .ok ⟨"f", 100⟩ ∧
    dlookup (swapEnter ⟨"f", 100⟩ (swapMockInit "f" [] sampleSt).2).2.mocks "f" =
      some 100 ∧
    dlookup (swapEnter ⟨"f", 100⟩ (swapMockInit "f" [] sampleSt).2).2.patchers "f" =
      none := by
  refine ⟨?_, ?_, ?_, ?_, ?_⟩ <;> decide

/-- Claim C3 (amended): from a state where the patch-handle and
active-substitute tables hold entries for the same identifiers, every
successful lifecycle operation preserves that alignment — `start_patching`
(single or all), `stop_patching` (single or all, hence also the `unmock`
extent and its exit), and a `swap_mock` extent over a currently patched
identifier, whose exit restores the pre-entry state exactly.  Only a
`swap_mock` extent over a registered identifier with no live handle (the
counterexample) puts the tables out of step for its duration. -/
theorem C3_tables_aligned (s : St) (hal : keysAligned s) :
    ((keys s.factory_map).Nodup →
      (∀ nf ∈ s.factory_map, nf.2.bad ≠ some [] ∧ dlookup s.world nf.1 ≠ none) →
      ∃ s', start_patching none s = (.ok (), s') ∧ keysAligned s') ∧
    (∀ n f w, dlookup s.factory_map n = some f → f.bad ≠ some [] →
      dlookup s.world n = some w →
      keysAligned (start_patching (some n) s).2) ∧
    (∀ n p cur, dlookup s.patchers n = some p → dlookup s.mocks n = some cur →
      (keys s.patchers).Nodup → (keys s.mocks).Nodup →
      keysAligned (stop_patching (some n) s).2) ∧
    (keys s.mocks = keys s.patchers → (keys s.patchers).Nodup →
      (∀ np ∈ s.patchers, (np.2 : Patcher).target = np.1) →
      ∃ s', stop_patching none s = (.ok (), s') ∧ keysAligned s') ∧
    (∀ sm : SwapMock, ∀ w, (dlookup s.patchers sm.path).isSome →
      dlookup s.world sm.path = some w →
      keysAligned (swapEnter sm s).2 ∧
      swapExit sm ⟨w, s.mocks⟩ (swapEnter sm s).2 = s) := by
  refine ⟨?_, ?_, ?_, ?_, ?_⟩
  · intro hnd hok
    have hcond : start_patching none s =
        startItems s.factory_map (if s.patchers ≠ [] ∧ (none : Option Ident) = none
          then warnAdd s "start_patching() called again, already patched" else s) := by
      unfold start_patching
      by_cases hc : s.patchers ≠ [] ∧ (none : Option Ident) = none
      · rw [if_pos hc]
        rfl
      · rw [if_neg hc]
    set sW := (if s.patchers ≠ [] ∧ (none : Option Ident) = none
      then warnAdd s "start_patching() called again, already patched" else s) with hsW
    have hWfields : sW.factory_map = s.factory_map ∧ sW.patchers = s.patchers ∧
        sW.mocks = s.mocks ∧ sW.world = s.world := by
      rw [hsW]
      by_cases hc : s.patchers ≠ [] ∧ (none : Option Ident) = none
      · rw [if_pos hc]
        exact ⟨rfl, rfl, rfl, rfl⟩
      · rw [if_neg hc]
        exact ⟨rfl, rfl, rfl, rfl⟩
    obtain ⟨hWfm, hWp, hWm, hWw⟩ := hWfields
    obtain ⟨s', hrun, _, _, _, hmem_spec, hframe⟩ :=
      startItems_spec sW.factory_map sW (by rw [hWfm]; exact hnd)
        (by rw [hWfm]
            intro nf hmem
            obtain ⟨h1, h2⟩ := hok nf hmem
            exact ⟨h1, by rw [hWw]; exact h2⟩)
    refine ⟨s', by rw [hcond, ← hWfm]; exact hrun, ?_⟩
    intro k
    by_cases hk : k ∈ keys sW.factory_map
    · obtain ⟨nf, hnf_mem, hnf_eq⟩ := List.mem_map.mp hk
      obtain ⟨m, w, _, _, hp', hm', _⟩ := hmem_spec nf hnf_mem
      rw [hnf_eq] at hp' hm'
      simp [hp', hm']
    · obtain ⟨f1, f2, _⟩ := hframe k hk
      rw [f1, f2, hWp, hWm]
      exact hal k
  · intro n f w hf hb hw
    rw [start_one_ok s n f w hf hb hw]
    intro k
    by_cases hk : k = n
    · subst hk
      show (dlookup (dinsert s.patchers k ⟨k, s.fresh, w⟩) k).isSome ↔
        (dlookup (dinsert s.mocks k s.fresh) k).isSome
      rw [dlookup_dinsert, dlookup_dinsert]
      simp
    · show (dlookup (dinsert s.patchers n ⟨n, s.fresh, w⟩) k).isSome ↔
        (dlookup (dinsert s.mocks n s.fresh) k).isSome
      rw [dlookup_dinsert_ne _ _ _ _ (Ne.symm hk), dlookup_dinsert_ne _ _ _ _ (Ne.symm hk)]
      exact hal k
  · intro n p cur hp hm hnp hnm
    rw [stop_one_ok s n p cur hp hm]
    intro k
    by_cases hk : k = n
    · subst hk
      show (dlookup (derase s.patchers k) k).isSome ↔ (dlookup (derase s.mocks k) k).isSome
      rw [dlookup_derase_self _ _ hnp, dlookup_derase_self _ _ hnm]
      exact Iff.rfl
    · show (dlookup (derase s.patchers n) k).isSome ↔ (dlookup (derase s.mocks n) k).isSome
      rw [dlookup_derase_ne _ _ _ (Ne.symm hk), dlookup_derase_ne _ _ _ (Ne.symm hk)]
      exact hal k
  · intro hkeys hnd htgt
    by_cases he : s.patchers = []
    · have hmocks : s.mocks = [] := by
        rw [he] at hkeys
        cases hml : s.mocks with
        | nil => rfl
        | cons hd tl =>
          rw [hml] at hkeys
          simp [keys] at hkeys
      refine ⟨warnAdd s "stop_patching() called again, already stopped", ?_, ?_⟩
      · unfold stop_patching
        rw [if_pos he]
        show stopItems (warnAdd s "stop_patching() called again, already stopped").patchers
          (warnAdd s "stop_patching() called again, already stopped") = _
        have h9 : (warnAdd s "stop_patching() called again, already stopped").patchers = [] := he
        rw [h9]
        rfl
      · intro k
        show (dlookup s.patchers k).isSome ↔ (dlookup s.mocks k).isSome
        exact hal k
    · obtain ⟨s', hrun, hp', hm', _, _, _, _⟩ :=
        stopItems_all s.patchers s.mocks s rfl rfl hkeys hnd htgt
      refine ⟨s', ?_, ?_⟩
      · unfold stop_patching
        rw [if_neg he]
        exact hrun
      · intro k
        rw [hp', hm']
        simp [dlookup]
  · intro sm w hp hw
    have h1 : swapEnter sm s =
        (.ok (sm.new_mock, ⟨w, s.mocks⟩), { s with world := dinsert s.world sm.path sm.new_mock, mocks := dinsert s.mocks sm.path sm.new_mock }) := by
      unfold swapEnter
      rw [hw]
    constructor
    · rw [h1]
      intro k
      by_cases hk : k = sm.path
      · subst hk
        show (dlookup s.patchers sm.path).isSome ↔
          (dlookup (dinsert s.mocks sm.path sm.new_mock) sm.path).isSome
        rw [dlookup_dinsert]
        simp [hp]
      · show (dlookup s.patchers k).isSome ↔
          (dlookup (dinsert s.mocks sm.path sm.new_mock) k).isSome
        rw [dlookup_dinsert_ne _ _ _ _ (Ne.symm hk)]
        exact hal k
    · rw [h1]
      unfold swapExit
      show ({ s with world := dinsert (dinsert s.world sm.path sm.new_mock) sm.path w, mocks := s.mocks } : St) = s
      rw [dinsert_dinsert, dinsert_self s.world sm.path w hw]

/-- Witness for C2 at the started sample state (both identifiers live). -/
theorem C2_start_again_warns_and_repatches_witness :
    sampleStarted.patchers ≠ [] ∧
    (keys sampleStarted.factory_map).Nodup ∧
    (∀ nf ∈ sampleStarted.factory_map,
      nf.2.bad ≠ some [] ∧ dlookup sampleStarted.world nf.1 ≠ none) ∧
    (∃ s', start_patching none sampleStarted = (.ok (), s') ∧
      s'.warns = sampleStarted.warns ++ ["start_patching() called again, already patched"] ∧
      (∀ nf ∈ sampleStarted.factory_map, ∃ m w, sampleStarted.fresh ≤ m ∧
        dlookup sampleStarted.world nf.1 = some w ∧
        dlookup s'.patchers nf.1 = some ⟨nf.1, m, w⟩ ∧
        dlookup s'.mocks nf.1 = some m ∧
        dlookup s'.world nf.1 = some m)) :=
  ⟨by decide, by decide, by decide,
   C2_start_again_warns_and_repatches sampleStarted (by decide) (by decide) (by decide)⟩

/-- Witness for C4 at the clean sample state. -/
theorem C4_start_stop_round_trip_witness :
    (keys sampleSt.factory_map).Nodup ∧
    sampleSt.patchers = [] ∧ sampleSt.mocks = [] ∧
    (∀ nf ∈ sampleSt.factory_map,
      nf.2.bad ≠ some [] ∧ dlookup sampleSt.world nf.1 ≠ none) ∧
    (∃ s1 s2, start_patching none sampleSt = (.ok (), s1) ∧
      stop_patching none s1 = (.ok (), s2) ∧
      (∀ k, dlookup s2.world k = dlookup sampleSt.world k) ∧
      s2.patchers = [] ∧ s2.mocks = [] ∧ s2.factory_map = sampleSt.factory_map) :=
  ⟨by decide, by decide, by decide, by decide,
   C4_start_stop_round_trip sampleSt (by decide) (by decide) (by decide) (by decide)⟩

/-- Witness for C3 at the started sample state (aligned tables). -/
theorem C3_tables_aligned_witness :
    keysAligned sampleStarted ∧
    (((keys sampleStarted.factory_map).Nodup →
      (∀ nf ∈ sampleStarted.factory_map,
        nf.2.bad ≠ some [] ∧ dlookup sampleStarted.world nf.1 ≠ none) →
      ∃ s', start_patching none sampleStarted = (.ok (), s') ∧ keysAligned s') ∧
    (∀ n f w, dlookup sampleStarted.factory_map n = some f → f.bad ≠ some [] →
      dlookup sampleStarted.world n = some w →
      keysAligned (start_patching (some n) sampleStarted).2) ∧
    (∀ n p cur, dlookup sampleStarted.patchers n = some p →
      dlookup sampleStarted.mocks n = some cur →
      (keys sampleStarted.patchers).Nodup → (keys sampleStarted.mocks).Nodup →
      keysAligned (stop_patching (some n) sampleStarted).2) ∧
    (keys sampleStarted.mocks = keys sampleStarted.patchers →
      (keys sampleStarted.patchers).Nodup →
      (∀ np ∈ sampleStarted.patchers, (np.2 : Patcher).target = np.1) →
      ∃ s', stop_patching none sampleStarted = (.ok (), s') ∧ keysAligned s') ∧
    (∀ sm : SwapMock, ∀ w, (dlookup sampleStarted.patchers sm.path).isSome →
      dlookup sampleStarted.world sm.path = some w →
      keysAligned (swapEnter sm sampleStarted).2 ∧
      swapExit sm ⟨w, sampleStarted.mocks⟩ (swapEnter sm sampleStarted).2 = sampleStarted)) := by
  have hal : keysAligned sampleStarted := by
    intro k
    have e1 : sampleStarted.patchers = [("f", ⟨"f", 100, 0⟩), ("g", ⟨"g", 101, 10⟩)] := by
      decide
    have e2 : sampleStarted.mocks = [("f", 100), ("g", 101)] := by decide
    rw [e1, e2]
    by_cases h1 : "f" = k <;> by_cases h2 : "g" = k <;> simp [dlookup, h1, h2]
  exact ⟨hal, C3_tables_aligned sampleStarted hal⟩

end Automock
